import Mathlib

/-!
Verification of the Earthstar document-validation library
(`src/address.rs`, `src/document.rs`, `src/error.rs`).

Rust strings are modelled as Lean `String` together with an explicit UTF-8
byte model (`charBytes`, `byteLen`, `strBytes`).  Rust byte-index slicing
(`s[1..]`, `s[0..2]`) can panic when the index is out of range or not a
character boundary; it is therefore modelled by `Option`-valued functions
(`dropB`, `takeB`) where `none` stands for a panic, and the validators that
slice are `Option Bool`-valued, with `none` propagating a panic.

`SystemTime` is modelled as nanoseconds since the Unix epoch (an `Int`;
negative values are instants before the epoch, for which
`duration_since(UNIX_EPOCH)` fails and `unwrap_or_default` yields 0).

SHA-256 and Ed25519 signing come from the external `sha2` and
`ed25519_dalek` crates, whose code is not part of this repository; they are
abstracted as a `Crypto` parameter.  Base32 is the `data_encoding`
crate's `BASE32_NOPAD` (RFC 4648, no padding, strict trailing-bit checking),
implemented concretely below.
-/

namespace Earthstar

/-- UTF-8 encoding of one character (RFC 3629), as the list of its bytes. -/
def charBytes (c : Char) : List Nat :=
  let n := c.toNat
  if n < 0x80 then [n]
  else if n < 0x800 then [0xC0 + n / 64, 0x80 + n % 64]
  else if n < 0x10000 then [0xE0 + n / 4096, 0x80 + n / 64 % 64, 0x80 + n % 64]
  else [0xF0 + n / 0x40000, 0x80 + n / 4096 % 64, 0x80 + n / 64 % 64, 0x80 + n % 64]

def byteLenL (l : List Char) : Nat := (l.map (fun c => (charBytes c).length)).sum

/-- Rust `str::len`: the length of a string in UTF-8 bytes. -/
def byteLen (s : String) : Nat := byteLenL s.data

/-- Rust `str::as_bytes`: the UTF-8 bytes of a string. -/
def strBytes (s : String) : List Nat := (s.data.map charBytes).flatten

/-- Rust byte slicing `s[n..]`: drops the first `n` bytes.  Returns `none`
(a panic) when `n` is past the end or not on a character boundary. -/
def dropB : Nat → List Char → Option (List Char)
  | 0, l => some l
  | _ + 1, [] => none
  | n + 1, c :: rest =>
    if (charBytes c).length ≤ n + 1 then dropB (n + 1 - (charBytes c).length) rest else none

/-- Rust byte slicing `s[0..n]`: takes the first `n` bytes.  Returns `none`
(a panic) when `n` is past the end or not on a character boundary. -/
def takeB : Nat → List Char → Option (List Char)
  | 0, _ => some []
  | _ + 1, [] => none
  | n + 1, c :: rest =>
    if (charBytes c).length ≤ n + 1 then
      (takeB (n + 1 - (charBytes c).length) rest).map (fun l => c :: l)
    else none

/-- Rust `s.chars().nth(0).unwrap_or_default()` (`char::default()` is `'\0'`). -/
def firstCharD (s : String) : Char := s.data.headD (Char.ofNat 0)

/-- Rust `char::is_ascii`. -/
def isAsciiChar (c : Char) : Bool := c.toNat ≤ 127

/-- Rust `char::is_ascii_whitespace` (space, tab, newline, form feed, carriage return). -/
def isAsciiWs (c : Char) : Bool :=
  c = ' ' || c = '\t' || c = '\n' || c = Char.ofNat 0x0C || c = Char.ofNat 0x0D

/-- Rust `char::is_ascii_control` (U+0000 through U+001F, and U+007F). -/
def isAsciiCtl (c : Char) : Bool := c.toNat < 32 || c.toNat = 127

/-- Rust `char::is_ascii_alphanumeric`. -/
def isAsciiAlphanum (c : Char) : Bool :=
  (48 ≤ c.toNat && c.toNat ≤ 57) || (65 ≤ c.toNat && c.toNat ≤ 90) ||
    (97 ≤ c.toNat && c.toNat ≤ 122)

/-- Rust `char::is_ascii_lowercase` (`'a'` through `'z'` only). -/
def isAsciiLower (c : Char) : Bool := 97 ≤ c.toNat && c.toNat ≤ 122

/-- Rust `char::is_ascii_digit`. -/
def isAsciiDigitC (c : Char) : Bool := 48 ≤ c.toNat && c.toNat ≤ 57

/-- Does `hay` start with `pat`? -/
def leadEq : List Char → List Char → Bool
  | _, [] => true
  | [], _ :: _ => false
  | a :: as, b :: bs => a = b && leadEq as bs

/-- Rust `str::contains` for a string pattern (byte-level substring search;
for valid UTF-8 this coincides with character-level search because UTF-8 is
self-synchronizing). -/
def hasSub : List Char → List Char → Bool
  | [], pat => pat.isEmpty
  | c :: rest, pat => leadEq (c :: rest) pat || hasSub rest pat

/-! ## Base32 (RFC 4648, no padding) — the `data_encoding` crate's `BASE32_NOPAD`.

Modelled from the spec: "base32 (RFC 4648, no padding)"; the crate is not
part of this repository's sources.  Encoding turns the input bytes into a
bit stream (most significant bit first), zero-pads it to a multiple of five
bits and maps each five-bit group to the alphabet `A`-`Z` `2`-`7`.  Decoding
is strict: it rejects characters outside the alphabet, encoded lengths that
are impossible for a byte stream (length mod 8 in {1, 3, 6}) and non-zero
trailing bits. -/

/-- The eight bits of a byte, most significant first. -/
def byteToBits (b : Nat) : List Bool :=
  [b.testBit 7, b.testBit 6, b.testBit 5, b.testBit 4,
   b.testBit 3, b.testBit 2, b.testBit 1, b.testBit 0]

/-- The value of a bit string, most significant bit first. -/
def bitsToNat : List Bool → Nat
  | [] => 0
  | b :: rest => (if b then 2 ^ rest.length else 0) + bitsToNat rest

/-- The five bits of a five-bit value, most significant first. -/
def natToBits5 (v : Nat) : List Bool :=
  [v.testBit 4, v.testBit 3, v.testBit 2, v.testBit 1, v.testBit 0]

/-- The RFC 4648 base32 alphabet. -/
def alphaB32 : List Char := "ABCDEFGHIJKLMNOPQRSTUVWXYZ234567".data

def b32Char (v : Nat) : Char := alphaB32.getD v 'A'

def b32Val (c : Char) : Option Nat := List.findIdx? (fun a => a = c) alphaB32

/-- Map each five-bit group of a bit string to its base32 character. -/
def bitsToB32Chars : List Bool → List Char
  | b1 :: b2 :: b3 :: b4 :: b5 :: rest =>
    b32Char (bitsToNat [b1, b2, b3, b4, b5]) :: bitsToB32Chars rest
  | [] => []
  | l => [b32Char (bitsToNat l)]

/-- Zero-pad a bit string to a multiple of five bits. -/
def padBits (l : List Bool) : List Bool :=
  l ++ List.replicate ((5 - l.length % 5) % 5) false

def b32encode (bs : List Nat) : String :=
  String.mk (bitsToB32Chars (padBits ((bs.map byteToBits).flatten)))

/-- Look up every character in the alphabet; `none` if any is invalid. -/
def b32Vals : List Char → Option (List Nat)
  | [] => some []
  | c :: rest =>
    match b32Val c, b32Vals rest with
    | some v, some vs => some (v :: vs)
    | _, _ => none

/-- Group a bit string into bytes, eight bits at a time (incomplete tail dropped). -/
def bitsToBytes : List Bool → List Nat
  | b1 :: b2 :: b3 :: b4 :: b5 :: b6 :: b7 :: b8 :: rest =>
    bitsToNat [b1, b2, b3, b4, b5, b6, b7, b8] :: bitsToBytes rest
  | _ => []

/-- The five-bit values of a bit string, five bits at a time (used to state
the encode/decode round trip). -/
def bitsToVals : List Bool → List Nat
  | b1 :: b2 :: b3 :: b4 :: b5 :: rest =>
    bitsToNat [b1, b2, b3, b4, b5] :: bitsToVals rest
  | [] => []
  | l => [bitsToNat l]

def b32decode (s : String) : Option (List Nat) :=
  match b32Vals s.data with
  | none => none
  | some vs =>
    if vs.length % 8 = 1 ∨ vs.length % 8 = 3 ∨ vs.length % 8 = 6 then none
    else
      let bits := (vs.map natToBits5).flatten
      let nb := 5 * vs.length / 8
      if (bits.drop (8 * nb)).all (fun b => b = false) then
        some (bitsToBytes (bits.take (8 * nb)))
      else none

/-! ## Cryptographic primitives (external crates) -/

/-- An Ed25519 key pair (`ed25519_dalek::Keypair`), 32-byte public and
secret keys.  The crate is external; only the key bytes matter here. -/
structure Keypair where
  publicKey : List Nat
  secretKey : List Nat

/-- Modelled from the spec: SHA-256 (`sha2` crate) and Ed25519 signing
(`ed25519_dalek` crate) are external code not present in the sources; they
are abstracted as parameters.  The facts the library relies on — a SHA-256
digest is 32 bytes and an Ed25519 signature is 64 bytes — are taken as
hypotheses where needed. -/
structure Crypto where
  sha256 : List Nat → List Nat
  sign : Keypair → List Nat → List Nat

/-! ## Errors (`src/error.rs`) -/

inductive ShareAddressError where
  | InvalidCharacters
  | InvalidLength
  | StartsWithDigit
deriving DecidableEq

inductive IdentityError where
  | InvalidCharacters
  | InvalidLength
  | StartsWithDigit
deriving DecidableEq

inductive DocumentError where
  | InvalidText
  | InvalidTextHash
  | InvalidFormat
  | InvalidPath
  | InvalidSignature
  | InvalidTimestamp
  | InvalidShareSignature
  | InvalidDeleteAfter
  | InvalidAttachmentSize
  | InvalidAttachmentHash
deriving DecidableEq

/-! ## Addresses (`src/address.rs`) -/

structure Identity where
  shortname : String
  keypair : Keypair

/-- `impl Display for Identity`: `@<shortname>.b<base32-nopad(public key)>`. -/
def Identity.display (i : Identity) : String :=
  "@" ++ i.shortname ++ ".b" ++ b32encode i.keypair.publicKey

/-- `Identity::new`.  Key generation draws from the platform RNG; the
freshly generated pair is passed in as `generated` and used when no key
pair is supplied. -/
def Identity.new (shortname : String) (keypair : Option Keypair) (generated : Keypair) :
    Except IdentityError Identity :=
  if ¬(1 ≤ byteLen shortname ∧ byteLen shortname < 16) then
    Except.error IdentityError.InvalidLength
  else if shortname.data.any (fun c => !isAsciiAlphanum c || !isAsciiLower c) then
    Except.error IdentityError.InvalidCharacters
  else if isAsciiDigitC (shortname.data.headD '0') then
    Except.error IdentityError.StartsWithDigit
  else
    Except.ok { shortname := shortname, keypair := keypair.getD generated }

structure ShareAddress where
  name : String
  keypair : Keypair

/-- `impl Display for ShareAddress`: `+<name>.b<base32-nopad(public key)>`. -/
def ShareAddress.display (a : ShareAddress) : String :=
  "+" ++ a.name ++ ".b" ++ b32encode a.keypair.publicKey

/-- `ShareAddress::new` (same checks as `Identity::new`). -/
def ShareAddress.new (name : String) (keypair : Option Keypair) (generated : Keypair) :
    Except ShareAddressError ShareAddress :=
  if ¬(1 ≤ byteLen name ∧ byteLen name < 16) then
    Except.error ShareAddressError.InvalidLength
  else if name.data.any (fun c => !isAsciiAlphanum c || !isAsciiLower c) then
    Except.error ShareAddressError.InvalidCharacters
  else if isAsciiDigitC (name.data.headD '0') then
    Except.error ShareAddressError.StartsWithDigit
  else
    Except.ok { name := name, keypair := keypair.getD generated }

/-! ## Documents (`src/document.rs`) -/

/-- Rust `SystemTime`, as nanoseconds since the Unix epoch. -/
abbrev SystemTime := Int

/-- `t.duration_since(UNIX_EPOCH).unwrap_or_default().as_micros()`:
instants before the epoch give duration 0. -/
def microsSinceEpoch (t : SystemTime) : Nat := (max t 0).toNat / 1000

structure Document where
  author : Identity
  text : String
  text_hash : String
  format : String
  path : String
  signature : String
  timestamp : SystemTime
  share : ShareAddress
  share_signature : String
  delete_after : Option SystemTime
  attachment_size : Option Int
  attachment_hash : Option String

namespace Document

def timestamp_as_u128 (d : Document) : Nat := microsSinceEpoch d.timestamp

def delete_after_as_u128 (d : Document) : Nat :=
  (d.delete_after.map microsSinceEpoch).getD 0

/-- `Document::hash_text`: SHA-256 the text bytes, base32-encode, prepend `b`. -/
def hash_text (crypto : Crypto) (text : String) : String :=
  "b" ++ b32encode (crypto.sha256 (strBytes text))

/-- The canonical signed payload of `Document::hash_document`: the first
`hasher.update` call's string (the attachment lines, under the same
`is_some` guard as the source) followed by the second call's `format!`
string; feeding both to the hasher is hashing their concatenation. -/
def hashPayload (d : Document) : String :=
  (if d.attachment_hash.isSome && d.attachment_size.isSome then
    "attachment_hash\t" ++ d.attachment_hash.getD "" ++ "\nattachment_size\t" ++
      toString (d.attachment_size.getD 0) ++ "\n"
  else "") ++
  ("author\t" ++ d.author.display ++ "\ndelete_after\t" ++ toString d.delete_after_as_u128 ++
    "\nformat\t" ++ d.format ++ "\npath\t" ++ d.path ++ "\nshare\t" ++ d.share.display ++
    "\nshare_signature\t" ++ d.share_signature ++ "\ntext_hash\t" ++ d.text_hash ++
    "\ntimestamp\t" ++ toString d.timestamp_as_u128 ++ "\n")

/-- `Document::hash_document`. -/
def hash_document (crypto : Crypto) (d : Document) : String :=
  "b" ++ b32encode (crypto.sha256 (strBytes (hashPayload d)))

/-- Lift a pure boolean conjunct into the panic-aware world. -/
def ob (b : Bool) : Option Bool := some b

def obP (p : Prop) [Decidable p] : Option Bool := some (decide p)

/-- Short-circuiting `&&` in the panic-aware world: a false conjunct makes
the whole chain false without evaluating (so without panicking in) the rest. -/
def oand : Option Bool → Option Bool → Option Bool
  | some false, _ => some false
  | some true, b => b
  | none, _ => none

def validate_text (d : Document) : Bool :=
  decide (byteLen d.text ≤ 8000) &&
    (d.attachment_hash.isSome && d.attachment_size.isSome && !d.text.isEmpty
      || d.attachment_hash.isNone && d.attachment_size.isNone && d.text.isEmpty)

def validate_text_hash (crypto : Crypto) (d : Document) : Option Bool :=
  oand (obP (firstCharD d.text_hash = 'b'))
    (oand (obP (byteLen d.text_hash = 53))
      (oand (match dropB 1 d.text_hash.data with
             | some rest => ob (b32decode (String.mk rest)).isSome
             | none => none)
        (obP (d.text_hash = hash_text crypto d.text))))

def validate_timestamp (d : Document) : Bool :=
  decide (10 ^ 13 ≤ d.timestamp_as_u128) && decide (d.timestamp_as_u128 ≤ 2 ^ 53 - 2)

/-- `delete_after.map(...).unwrap_or_default()`: note that `bool::default()`
is `false`, so an absent `delete_after` makes this check fail. -/
def validate_delete_after (d : Document) : Bool :=
  (d.delete_after.map (fun delete_after =>
    let delete_after_int := microsSinceEpoch delete_after
    decide (10 ^ 13 ≤ delete_after_int) && decide (delete_after_int ≤ 2 ^ 53 - 2) &&
      decide (d.timestamp < delete_after))).getD false

def validate_format (d : Document) : Bool :=
  d.format.data.all isAsciiChar && !(d.format.data.any isAsciiWs) &&
    !(d.format.data.any isAsciiCtl)

/-- `std::path::Path::file_name` for the ASCII, `//`-free paths this library
accepts: the last slash-separated component, skipping `.` components, and
`None` when the path ends in `..` or has no component. -/
def splitSlash : List Char → List (List Char)
  | [] => [[]]
  | c :: rest =>
    if c = '/' then [] :: splitSlash rest
    else
      match splitSlash rest with
      | [] => [[c]]
      | g :: gs => (c :: g) :: gs

def pathFileName (s : String) : Option (List Char) :=
  let parts := (splitSlash s.data).filter (fun p => !(p.isEmpty) && !(p = ['.'] : Bool))
  match parts.getLast? with
  | some last => if last = ['.', '.'] then none else some last
  | none => none

/-- `Path::new(s).extension().is_some()`: the file name contains a `.`
after its first character. -/
def pathExtensionIsSome (s : String) : Bool :=
  match pathFileName s with
  | some (_ :: rest) => rest.contains '.'
  | some [] => false
  | none => false

def validate_path (d : Document) : Option Bool :=
  oand (ob (d.path.data.all isAsciiChar))
  (oand (ob (!(d.path.data.any isAsciiWs)))
  (oand (ob (!(d.path.data.any isAsciiCtl)))
  (oand (obP (2 ≤ byteLen d.path))
  (oand (obP (byteLen d.path ≤ 512))
  (oand (obP (firstCharD d.path = '/'))
  (oand (match takeB 2 d.path.data with
         | some two => obP (String.mk two ≠ "/@")
         | none => none)
  (oand (ob (!hasSub d.path.data "//".data))
  (oand (ob ((d.delete_after.isNone && !hasSub d.path.data "!".data)
             || (d.delete_after.isSome && hasSub d.path.data "!".data)))
  (oand (ob (!hasSub d.path.data "?".data))
  (oand (ob (!hasSub d.path.data "#".data))
  (oand (ob (!hasSub d.path.data ";".data))
  (oand (ob (!hasSub d.path.data "<".data))
  (oand (ob (!hasSub d.path.data ">".data))
  (oand (ob (!hasSub d.path.data "\"".data))
  (oand (ob (!hasSub d.path.data "[".data))
  (oand (ob (!hasSub d.path.data "\\".data))
  (oand (ob (!hasSub d.path.data "]".data))
  (oand (ob (!hasSub d.path.data "^".data))
  (oand (ob (!hasSub d.path.data "\x7b".data))
  (oand (ob (!hasSub d.path.data "|".data))
  (oand (ob (!hasSub d.path.data "\x7d".data))
  (oand (ob (d.attachment_hash.isSome && d.attachment_size.isSome &&
               pathExtensionIsSome d.path
             || d.attachment_hash.isNone && d.attachment_size.isNone &&
               !pathExtensionIsSome d.path))
  (ob (!hasSub d.path.data "~".data
       || hasSub d.path.data ("~@" ++ d.author.shortname).data))))))))))))))))))))))))

def validate_signature (crypto : Crypto) (d : Document) : Option Bool :=
  oand (obP (firstCharD d.signature = 'b'))
  (oand (match dropB 1 d.signature.data with
         | some rest => ob (b32decode (String.mk rest)).isSome
         | none => none)
  (oand (ob ((decide (d.format = "es.5") && decide (byteLen d.signature = 104))
             || decide (¬(d.format = "es.5"))))
  (obP (d.signature =
    "b" ++ b32encode (crypto.sign d.author.keypair (strBytes (hash_document crypto d)))))))

def validate_share_signature (d : Document) : Option Bool :=
  oand (obP (firstCharD d.share_signature = 'b'))
  (oand (match dropB 1 d.share_signature.data with
         | some rest => ob (b32decode (String.mk rest)).isSome
         | none => none)
  (ob ((decide (d.format = "es.5") && decide (byteLen d.share_signature = 104))
       || decide (¬(d.format = "es.5")))))

/-- Wrap an integer to `i32` (release-mode overflow semantics). -/
def i32wrap (n : Int) : Int := (n + 2 ^ 31) % 2 ^ 32 - 2 ^ 31

/-- `2_i32.pow(53) - 2`: the exponentiation overflows `i32` (it wraps to 0
in release builds, so the bound is `-2`; debug builds panic). -/
def validate_attachment_size (d : Document) : Bool :=
  (d.attachment_size.map (fun attachment_size =>
    decide (0 ≤ attachment_size) && decide (attachment_size ≤ i32wrap (2 ^ 53) - 2))).getD false

def validate_attachment_hash (d : Document) : Option Bool :=
  (d.attachment_hash.map (fun attachment_hash =>
    oand (obP (firstCharD attachment_hash = 'b'))
      (oand (obP (byteLen attachment_hash = 53))
        (match dropB 1 attachment_hash.data with
         | some rest => ob (b32decode (String.mk rest)).isSome
         | none => none)))).getD (ob false)

end Document

/-- The candidate record `Document::new` builds before validating:
`text_hash.unwrap_or(Document::hash_text(text))`. -/
def mkDocument (crypto : Crypto) (author : Identity) (text : String)
    (text_hash : Option String) (format : String) (path : String) (signature : String)
    (timestamp : SystemTime) (share : ShareAddress) (share_signature : String)
    (delete_after : Option SystemTime) (attachment_size : Option Int)
    (attachment_hash : Option String) : Document :=
  { author := author, text := text,
    text_hash := text_hash.getD (Document.hash_text crypto text),
    format := format, path := path, signature := signature, timestamp := timestamp,
    share := share, share_signature := share_signature, delete_after := delete_after,
    attachment_size := attachment_size, attachment_hash := attachment_hash }

/-- One `if !check { return Err(e) }` stage of `Document::new`; `none`
propagates a panic from the check itself. -/
def step (check : Option Bool) (e : DocumentError)
    (k : Option (Except DocumentError Document)) : Option (Except DocumentError Document) :=
  match check with
  | none => none
  | some false => some (Except.error e)
  | some true => k

open Document in
/-- The validation chain of `Document::new`, in source order. -/
def runChecks (crypto : Crypto) (d : Document) : Option (Except DocumentError Document) :=
  step (ob d.validate_text) DocumentError.InvalidText
  (step (validate_text_hash crypto d) DocumentError.InvalidTextHash
  (step (ob d.validate_format) DocumentError.InvalidFormat
  (step d.validate_path DocumentError.InvalidPath
  (step (validate_signature crypto d) DocumentError.InvalidSignature
  (step (ob d.validate_timestamp) DocumentError.InvalidTimestamp
  (step d.validate_share_signature DocumentError.InvalidShareSignature
  (step (ob d.validate_delete_after) DocumentError.InvalidDeleteAfter
  (step (ob d.validate_attachment_size) DocumentError.InvalidAttachmentSize
  (step d.validate_attachment_hash DocumentError.InvalidAttachmentHash
  (some (Except.ok d)))))))))))

/-- `Document::new`. -/
def Document.new (crypto : Crypto) (author : Identity) (text : String)
    (text_hash : Option String) (format : String) (path : String) (signature : String)
    (timestamp : SystemTime) (share : ShareAddress) (share_signature : String)
    (delete_after : Option SystemTime) (attachment_size : Option Int)
    (attachment_hash : Option String) : Option (Except DocumentError Document) :=
  runChecks crypto (mkDocument crypto author text text_hash format path signature
    timestamp share share_signature delete_after attachment_size attachment_hash)

/-! ## Specification-side definitions

These follow the words of the specification (not the source); the
refinement theorems below compare them with the source embedding. -/

/-- Spec: `encode_hash(bytes)`: SHA-256 the input, base32-encode the digest
without padding, prepend `b`. -/
def encode_hash (crypto : Crypto) (bs : List Nat) : String :=
  "b" ++ b32encode (crypto.sha256 bs)

/-- Spec: fields are concatenated as `"<name>\t<value>\n"` lines. -/
def fieldLine (name value : String) : String := name ++ "\t" ++ value ++ "\n"

/-- Spec: the canonical signed payload: when an attachment is present
(both attachment fields set), `attachment_hash` then `attachment_size`
first; then always, in this order: `author` (display form), `delete_after`
(integer microseconds, 0 when absent), `format`, `path`, `share` (display
form), `share_signature`, `text_hash`, `timestamp` (integer microseconds). -/
def canonicalPayloadSpec (d : Document) : String :=
  (if d.attachment_hash.isSome && d.attachment_size.isSome then
    fieldLine "attachment_hash" (d.attachment_hash.getD "") ++
      fieldLine "attachment_size" (toString (d.attachment_size.getD 0))
  else "") ++
  fieldLine "author" d.author.display ++
  fieldLine "delete_after" (toString d.delete_after_as_u128) ++
  fieldLine "format" d.format ++
  fieldLine "path" d.path ++
  fieldLine "share" d.share.display ++
  fieldLine "share_signature" d.share_signature ++
  fieldLine "text_hash" d.text_hash ++
  fieldLine "timestamp" (toString d.timestamp_as_u128)

/-- Spec: the ten checks of `Document::new`, in their fixed order, each
paired with the error it reports. -/
def checkOutcomes (crypto : Crypto) (d : Document) : List (Option Bool × DocumentError) :=
  [(Document.ob d.validate_text, DocumentError.InvalidText),
   (Document.validate_text_hash crypto d, DocumentError.InvalidTextHash),
   (Document.ob d.validate_format, DocumentError.InvalidFormat),
   (d.validate_path, DocumentError.InvalidPath),
   (Document.validate_signature crypto d, DocumentError.InvalidSignature),
   (Document.ob d.validate_timestamp, DocumentError.InvalidTimestamp),
   (d.validate_share_signature, DocumentError.InvalidShareSignature),
   (Document.ob d.validate_delete_after, DocumentError.InvalidDeleteAfter),
   (Document.ob d.validate_attachment_size, DocumentError.InvalidAttachmentSize),
   (d.validate_attachment_hash, DocumentError.InvalidAttachmentHash)]

/-- Spec: the outcome of an ordered, short-circuiting check list:
`some (some e)` = first failing check reports `e`, `some none` = all pass,
`none` = a check panicked. -/
def firstOutcome : List (Option Bool × DocumentError) → Option (Option DocumentError)
  | [] => some none
  | (none, _) :: _ => none
  | (some false, e) :: _ => some (some e)
  | (some true, _) :: rest => firstOutcome rest

/-- Run an ordered check list over `step` (proof intermediary between
`runChecks` and `firstOutcome`). -/
def foldOutcomes (d : Document) : List (Option Bool × DocumentError) →
    Option (Except DocumentError Document)
  | [] => some (Except.ok d)
  | (c, e) :: rest => step c e (foldOutcomes d rest)

/-- The correctly computed author signature of a candidate document: the
value `validate_signature` requires the `signature` field to equal. -/
def correctSignature (crypto : Crypto) (d : Document) : String :=
  "b" ++ b32encode (crypto.sign d.author.keypair (strBytes (Document.hash_document crypto d)))

/-! ## Concrete instances (used by witnesses and counterexamples) -/

/-- An all-zero key pair (the checks never inspect key bytes). -/
def kpZero : Keypair := { publicKey := List.replicate 32 0, secretKey := List.replicate 32 0 }

/-- A concrete `Crypto` instance with the digest lengths of SHA-256 and
Ed25519, used to instantiate theorems that hold for every `Crypto`. -/
def cryptoZero : Crypto :=
  { sha256 := fun _ => List.replicate 32 0, sign := fun _ _ => List.replicate 64 0 }

def bob : Identity := { shortname := "bob", keypair := kpZero }

def chat : ShareAddress := { name := "chat", keypair := kpZero }

/-- A syntactically valid 104-character share signature (`b` + 103 base32
characters with zero trailing bits). -/
def ss104 : String := "b" ++ String.mk (List.replicate 103 'A')

/-- A valid timestamp: 10^16 nanoseconds = 10^13 microseconds. -/
def T0 : SystemTime := 10 ^ 16

/-- The correctly computed signature for the candidate document built from
the given fields (the signed payload does not include the signature field
itself, so it can be computed with a placeholder signature). -/
def sigFor (crypto : Crypto) (text path : String) (ts : SystemTime)
    (da : Option SystemTime) (asz : Option Int) (ah : Option String) : String :=
  correctSignature crypto
    (mkDocument crypto bob text none "es.5" path "" ts chat ss104 da asz ah)

/-- A concrete candidate document (used to instantiate universally
quantified theorems). -/
def docW : Document :=
  mkDocument cryptoZero bob "" none "es.5" "/chat" "" T0 chat ss104 none none none

/-- An out-of-range timestamp: (10^13 − 1) microseconds, in nanoseconds. -/
def tsBad : SystemTime := (10 ^ 13 - 1) * 1000

/-! # Theorems -/

section Infrastructure

open Document

theorem oand_isSome_of (x : Bool) (b : Option Bool) (h : x = true → b.isSome = true) :
    (oand (some x) b).isSome = true := by
  cases x
  · rfl
  · simpa [oand] using h rfl

theorem byteLenL_cons (c : Char) (l : List Char) :
    byteLenL (c :: l) = (charBytes c).length + byteLenL l := by
  simp [byteLenL]

theorem byteLen_data_append (s t : List Char) : byteLenL (s ++ t) = byteLenL s + byteLenL t := by
  simp [byteLenL]

theorem charBytes_ascii (c : Char) (h : isAsciiChar c = true) : charBytes c = [c.toNat] := by
  have : c.toNat < 0x80 := by
    have := of_decide_eq_true h
    omega
  simp [charBytes, this]

theorem bitsToNat_lt (l : List Bool) : bitsToNat l < 2 ^ l.length := by
  induction l with
  | nil => simp [bitsToNat]
  | cons b rest ih =>
    have h2 : (2 : Nat) ^ (b :: rest).length = 2 ^ rest.length * 2 := by
      simp [List.length_cons, pow_succ]
    cases b <;> simp [bitsToNat] <;> omega

theorem natToBits5_bitsToNat (b1 b2 b3 b4 b5 : Bool) :
    natToBits5 (bitsToNat [b1, b2, b3, b4, b5]) = [b1, b2, b3, b4, b5] := by
  cases b1 <;> cases b2 <;> cases b3 <;> cases b4 <;> cases b5 <;> decide

theorem b32Val_b32Char : ∀ v : Nat, v < 32 → b32Val (b32Char v) = some v := by decide

theorem alphaB32_length : alphaB32.length = 32 := rfl

theorem charBytes_b32Char (v : Nat) : (charBytes (b32Char v)).length = 1 := by
  by_cases h : v < 32
  · have hmem : ∀ c ∈ alphaB32, (charBytes c).length = 1 := by decide
    have hvlt : v < alphaB32.length := by simpa [alphaB32_length] using h
    have heq : b32Char v = alphaB32[v] := by
      simp [b32Char, List.getD, List.getElem?_eq_getElem hvlt]
    rw [heq]
    exact hmem _ (List.getElem_mem hvlt)
  · have : b32Char v = 'A' := by
      simp [b32Char, List.getD]
      rw [List.getElem?_eq_none (by simp [alphaB32_length]; omega)]
      rfl
    rw [this]
    rfl

theorem flat_byteToBits_length (bs : List Nat) :
    ((bs.map byteToBits).flatten).length = 8 * bs.length := by
  induction bs with
  | nil => rfl
  | cons b rest ih => simp [byteToBits] at ih ⊢; omega

/-- The combined induction over five-bit groups: alphabet lookups succeed,
lengths agree, and the bit string round-trips. -/
theorem b32chunks : ∀ (n : Nat) (l : List Bool), l.length = 5 * n →
    b32Vals (bitsToB32Chars l) = some (bitsToVals l) ∧
    (bitsToVals l).length = n ∧
    ((bitsToVals l).map natToBits5).flatten = l ∧
    (bitsToB32Chars l).length = n ∧
    (∀ c ∈ bitsToB32Chars l, (charBytes c).length = 1) := by
  intro n
  induction n with
  | zero =>
    intro l h
    have : l = [] := List.eq_nil_of_length_eq_zero (by omega)
    subst this
    refine ⟨rfl, rfl, rfl, rfl, ?_⟩
    intro c hc
    simp [bitsToB32Chars] at hc
  | succ n ih =>
    intro l h
    match l, h with
    | [], h => simp only [List.length_nil] at h; omega
    | [b1], h => simp only [List.length_cons, List.length_nil] at h; omega
    | [b1, b2], h => simp only [List.length_cons, List.length_nil] at h; omega
    | [b1, b2, b3], h => simp only [List.length_cons, List.length_nil] at h; omega
    | [b1, b2, b3, b4], h => simp only [List.length_cons, List.length_nil] at h; omega
    | b1 :: b2 :: b3 :: b4 :: b5 :: rest, h =>
      have hrest : rest.length = 5 * n := by simp at h; omega
      obtain ⟨hv, hlen, hflat, hclen, hmem⟩ := ih rest hrest
      have hlt : bitsToNat [b1, b2, b3, b4, b5] < 32 := by
        have := bitsToNat_lt [b1, b2, b3, b4, b5]
        simpa using this
      have hchars : bitsToB32Chars (b1 :: b2 :: b3 :: b4 :: b5 :: rest) =
          b32Char (bitsToNat [b1, b2, b3, b4, b5]) :: bitsToB32Chars rest := rfl
      have hvals : bitsToVals (b1 :: b2 :: b3 :: b4 :: b5 :: rest) =
          bitsToNat [b1, b2, b3, b4, b5] :: bitsToVals rest := rfl
      refine ⟨?_, ?_, ?_, ?_, ?_⟩
      · rw [hchars, hvals]
        simp [b32Vals, b32Val_b32Char _ hlt, hv]
      · rw [hvals]; simp [hlen]
      · rw [hvals]
        simp [natToBits5_bitsToNat, hflat]
      · rw [hchars]; simp [hclen]
      · rw [hchars]
        intro c hc
        rw [List.mem_cons] at hc
        rcases hc with hc | hc
        · subst hc; exact charBytes_b32Char _
        · exact hmem c hc

theorem padBits_length (l : List Bool) :
    (padBits l).length = l.length + (5 - l.length % 5) % 5 := by
  simp [padBits]

theorem b32decode_encode (bs : List Nat) : (b32decode (b32encode bs)).isSome = true := by
  set bits := (bs.map byteToBits).flatten with hbits
  have hbl : bits.length = 8 * bs.length := flat_byteToBits_length bs
  set p := (5 - bits.length % 5) % 5 with hp
  have h5 : (padBits bits).length = 5 * ((8 * bs.length + p) / 5) := by
    rw [padBits_length]
    omega
  set n := (8 * bs.length + p) / 5 with hn
  obtain ⟨hv, hlen, hflat, -, -⟩ := b32chunks n (padBits bits) h5
  have hdata : (b32encode bs).data = bitsToB32Chars (padBits bits) := rfl
  have hmod : ¬((bitsToVals (padBits bits)).length % 8 = 1 ∨
      (bitsToVals (padBits bits)).length % 8 = 3 ∨
      (bitsToVals (padBits bits)).length % 8 = 6) := by
    rw [hlen]
    omega
  have hnb : 5 * (bitsToVals (padBits bits)).length / 8 = bs.length := by
    rw [hlen]
    omega
  have hpad : padBits bits = bits ++ List.replicate p false := rfl
  have hdrop : (((bitsToVals (padBits bits)).map natToBits5).flatten).drop
      (8 * (5 * (bitsToVals (padBits bits)).length / 8)) = List.replicate p false := by
    rw [hflat, hnb, hpad, ← hbl, List.drop_left]
  unfold b32decode
  rw [hdata, hv]
  simp only [hmod, if_false]
  rw [hdrop]
  simp

theorem b32encode_data_length (bs : List Nat) :
    (b32encode bs).data.length = (8 * bs.length + 4) / 5 := by
  set bits := (bs.map byteToBits).flatten with hbits
  have hbl : bits.length = 8 * bs.length := flat_byteToBits_length bs
  set p := (5 - bits.length % 5) % 5 with hp
  have h5 : (padBits bits).length = 5 * ((8 * bs.length + p) / 5) := by
    rw [padBits_length]; omega
  obtain ⟨-, -, -, hclen, -⟩ := b32chunks _ (padBits bits) h5
  have hdata : (b32encode bs).data = bitsToB32Chars (padBits bits) := rfl
  rw [hdata, hclen]
  omega

theorem b32encode_byteLen (bs : List Nat) :
    byteLen (b32encode bs) = (8 * bs.length + 4) / 5 := by
  set bits := (bs.map byteToBits).flatten with hbits
  have hbl : bits.length = 8 * bs.length := flat_byteToBits_length bs
  set p := (5 - bits.length % 5) % 5 with hp
  have h5 : (padBits bits).length = 5 * ((8 * bs.length + p) / 5) := by
    rw [padBits_length]; omega
  obtain ⟨-, -, -, hclen, hmem⟩ := b32chunks _ (padBits bits) h5
  have hdata : (b32encode bs).data = bitsToB32Chars (padBits bits) := rfl
  have hsum : ∀ l : List Char, (∀ c ∈ l, (charBytes c).length = 1) → byteLenL l = l.length := by
    intro l
    induction l with
    | nil => intro _; rfl
    | cons c rest ih =>
      intro hmem'
      rw [byteLenL_cons, hmem' c (by simp), ih (fun x hx => hmem' x (by simp [hx]))]
      simp [Nat.add_comm]
  show byteLenL (b32encode bs).data = _
  rw [hdata, hsum _ hmem, hclen]
  omega

end Infrastructure

section ValidatorLemmas

open Document

theorem data_of_firstChar (s : String) (h : firstCharD s = 'b') :
    ∃ rest, s.data = 'b' :: rest := by
  rcases hs : s.data with _ | ⟨c, rest⟩
  · unfold firstCharD at h
    rw [hs] at h
    exact absurd h (by decide)
  · unfold firstCharD at h
    rw [hs] at h
    simp at h
    subst h
    exact ⟨rest, rfl⟩

theorem hash_text_data (crypto : Crypto) (t : String) :
    (hash_text crypto t).data = 'b' :: (b32encode (crypto.sha256 (strBytes t))).data := by
  simp [hash_text, String.data_append]

theorem dropB_one_b (rest : List Char) : dropB 1 ('b' :: rest) = some rest := by
  simp [dropB, charBytes]

theorem vth_computed (crypto : Crypto) (h32 : ∀ x, (crypto.sha256 x).length = 32)
    (d : Document) (hd : d.text_hash = hash_text crypto d.text) :
    validate_text_hash crypto d = some true := by
  have hdata : (hash_text crypto d.text).data =
      'b' :: (b32encode (crypto.sha256 (strBytes d.text))).data := hash_text_data crypto d.text
  have h1 : firstCharD (hash_text crypto d.text) = 'b' := by simp [firstCharD, hdata]
  have h2 : byteLen (hash_text crypto d.text) = 53 := by
    show byteLenL (hash_text crypto d.text).data = 53
    rw [hdata, byteLenL_cons]
    have henc : byteLenL (b32encode (crypto.sha256 (strBytes d.text))).data = 52 := by
      have hb := b32encode_byteLen (crypto.sha256 (strBytes d.text))
      rw [h32] at hb
      exact hb
    rw [henc]
    rfl
  have h3 : dropB 1 (hash_text crypto d.text).data =
      some (b32encode (crypto.sha256 (strBytes d.text))).data := by
    rw [hdata]
    exact dropB_one_b _
  have h4 : (b32decode (String.mk (b32encode (crypto.sha256 (strBytes d.text))).data)).isSome
      = true := b32decode_encode _
  unfold validate_text_hash
  rw [hd, h3]
  simp [oand, ob, obP, h1, h2, h4]

theorem vsig_computed (crypto : Crypto) (h64 : ∀ kp m, (crypto.sign kp m).length = 64)
    (d : Document) (hfmt : d.format = "es.5") (hs : d.signature = correctSignature crypto d) :
    validate_signature crypto d = some true := by
  have hdata : ("b" ++ b32encode (crypto.sign d.author.keypair
      (strBytes (hash_document crypto d)))).data =
      'b' :: (b32encode (crypto.sign d.author.keypair
        (strBytes (hash_document crypto d)))).data := by
    simp [String.data_append]
  have h1 : firstCharD ("b" ++ b32encode (crypto.sign d.author.keypair
      (strBytes (hash_document crypto d)))) = 'b' := by simp [firstCharD, hdata]
  have h2 : byteLen ("b" ++ b32encode (crypto.sign d.author.keypair
      (strBytes (hash_document crypto d)))) = 104 := by
    show byteLenL ("b" ++ b32encode (crypto.sign d.author.keypair
      (strBytes (hash_document crypto d)))).data = 104
    rw [hdata, byteLenL_cons]
    have henc : byteLenL (b32encode (crypto.sign d.author.keypair
        (strBytes (hash_document crypto d)))).data = 103 := by
      have hb := b32encode_byteLen (crypto.sign d.author.keypair
        (strBytes (hash_document crypto d)))
      rw [h64] at hb
      exact hb
    rw [henc]
    rfl
  have h3 : dropB 1 ("b" ++ b32encode (crypto.sign d.author.keypair
      (strBytes (hash_document crypto d)))).data =
      some (b32encode (crypto.sign d.author.keypair
        (strBytes (hash_document crypto d)))).data := by
    rw [hdata]
    exact dropB_one_b _
  have h4 : (b32decode (String.mk (b32encode (crypto.sign d.author.keypair
      (strBytes (hash_document crypto d)))).data)).isSome = true := b32decode_encode _
  unfold validate_signature
  rw [hs]
  simp only [correctSignature]
  rw [h3]
  simp [oand, ob, obP, h1, h2, h4, hfmt]

theorem vth_isSome (crypto : Crypto) (d : Document) :
    (validate_text_hash crypto d).isSome = true := by
  unfold validate_text_hash
  simp only [obP, ob]
  apply oand_isSome_of
  intro h1
  obtain ⟨rest, hr⟩ := data_of_firstChar _ (of_decide_eq_true h1)
  apply oand_isSome_of
  intro _
  rw [hr]
  rw [dropB_one_b]
  apply oand_isSome_of
  intro _
  rfl

theorem vsig_isSome (crypto : Crypto) (d : Document) :
    (validate_signature crypto d).isSome = true := by
  unfold validate_signature
  simp only [obP, ob]
  apply oand_isSome_of
  intro h1
  obtain ⟨rest, hr⟩ := data_of_firstChar _ (of_decide_eq_true h1)
  rw [hr]
  rw [dropB_one_b]
  apply oand_isSome_of
  intro _
  apply oand_isSome_of
  intro _
  rfl

theorem vss_isSome (d : Document) : (validate_share_signature d).isSome = true := by
  unfold validate_share_signature
  simp only [obP, ob]
  apply oand_isSome_of
  intro h1
  obtain ⟨rest, hr⟩ := data_of_firstChar _ (of_decide_eq_true h1)
  rw [hr]
  rw [dropB_one_b]
  apply oand_isSome_of
  intro _
  rfl

theorem vah_isSome (d : Document) : (validate_attachment_hash d).isSome = true := by
  unfold validate_attachment_hash
  rcases d.attachment_hash with _ | ah
  · rfl
  · simp only [Option.map_some, Option.getD_some, obP, ob]
    apply oand_isSome_of
    intro h1
    obtain ⟨rest, hr⟩ := data_of_firstChar _ (of_decide_eq_true h1)
    rw [hr]
    rw [dropB_one_b]
    apply oand_isSome_of
    intro _
    rfl

theorem takeB2_ascii (l : List Char) (hall : ∀ c ∈ l, isAsciiChar c = true)
    (h2 : 2 ≤ byteLenL l) : ∃ two, takeB 2 l = some two := by
  match l with
  | [] => simp [byteLenL] at h2
  | [c] =>
    rw [byteLenL_cons, charBytes_ascii c (hall c (by simp))] at h2
    simp [byteLenL] at h2
  | c1 :: c2 :: rest =>
    refine ⟨[c1, c2], ?_⟩
    simp [takeB, charBytes_ascii c1 (hall c1 (by simp)),
      charBytes_ascii c2 (hall c2 (by simp))]

theorem vpath_isSome (d : Document) : (validate_path d).isSome = true := by
  unfold validate_path
  simp only [obP, ob]
  apply oand_isSome_of
  intro h1
  apply oand_isSome_of
  intro _
  apply oand_isSome_of
  intro _
  apply oand_isSome_of
  intro h4
  apply oand_isSome_of
  intro _
  apply oand_isSome_of
  intro _
  have hall : ∀ c ∈ d.path.data, isAsciiChar c = true := by
    rw [List.all_eq_true] at h1
    exact h1
  obtain ⟨two, htwo⟩ := takeB2_ascii d.path.data hall (of_decide_eq_true h4)
  rw [htwo]
  repeat (first | rfl | (apply oand_isSome_of; intro _))

theorem isEmpty_false_iff (s : String) : s.isEmpty = false ↔ s ≠ "" := by
  constructor
  · intro h he
    rw [he] at h
    exact absurd h (by decide)
  · intro h
    cases hb : s.isEmpty
    · rfl
    · exact absurd ((String.isEmpty_iff s).mp hb) h

theorem runChecks_eq_fold (crypto : Crypto) (d : Document) :
    runChecks crypto d = foldOutcomes d (checkOutcomes crypto d) := rfl

theorem fold_eq_first (d : Document) (l : List (Option Bool × DocumentError)) :
    foldOutcomes d l = (firstOutcome l).map
      (fun o => match o with | some e => Except.error e | none => Except.ok d) := by
  induction l with
  | nil => rfl
  | cons p rest ih =>
    rcases p with ⟨c, e⟩
    rcases c with _ | b
    · rfl
    · cases b
      · rfl
      · simpa [foldOutcomes, step, firstOutcome] using ih

theorem first_all_pass (l : List (Option Bool × DocumentError)) :
    firstOutcome l = some none ↔ ∀ p ∈ l, p.1 = some true := by
  induction l with
  | nil => simp [firstOutcome]
  | cons p rest ih =>
    rcases p with ⟨c, e⟩
    rcases c with _ | b
    · simp [firstOutcome]
    · cases b
      · simp [firstOutcome]
      · simp [firstOutcome, ih]

theorem runChecks_ok_iff (crypto : Crypto) (d : Document) :
    runChecks crypto d = some (Except.ok d) ↔
      ∀ p ∈ checkOutcomes crypto d, p.1 = some true := by
  rw [runChecks_eq_fold, fold_eq_first, ← first_all_pass]
  rcases h : firstOutcome (checkOutcomes crypto d) with _ | (_ | e) <;> simp

theorem runChecks_stop1 (crypto : Crypto) (d : Document)
    (h1 : d.validate_text = false) :
    runChecks crypto d = some (Except.error DocumentError.InvalidText) := by
  unfold runChecks
  simp [ob, step, h1]

theorem runChecks_stop6 (crypto : Crypto) (d : Document)
    (h1 : d.validate_text = true) (h2 : validate_text_hash crypto d = some true)
    (h3 : d.validate_format = true) (h4 : d.validate_path = some true)
    (h5 : validate_signature crypto d = some true) (h6 : d.validate_timestamp = false) :
    runChecks crypto d = some (Except.error DocumentError.InvalidTimestamp) := by
  unfold runChecks
  simp [ob, step, h1, h2, h3, h4, h5, h6]

theorem runChecks_stop8 (crypto : Crypto) (d : Document)
    (h1 : d.validate_text = true) (h2 : validate_text_hash crypto d = some true)
    (h3 : d.validate_format = true) (h4 : d.validate_path = some true)
    (h5 : validate_signature crypto d = some true) (h6 : d.validate_timestamp = true)
    (h7 : validate_share_signature d = some true) (h8 : d.validate_delete_after = false) :
    runChecks crypto d = some (Except.error DocumentError.InvalidDeleteAfter) := by
  unfold runChecks
  simp [ob, step, h1, h2, h3, h4, h5, h6, h7, h8]

theorem runChecks_stop9 (crypto : Crypto) (d : Document)
    (h1 : d.validate_text = true) (h2 : validate_text_hash crypto d = some true)
    (h3 : d.validate_format = true) (h4 : d.validate_path = some true)
    (h5 : validate_signature crypto d = some true) (h6 : d.validate_timestamp = true)
    (h7 : validate_share_signature d = some true) (h8 : d.validate_delete_after = true)
    (h9 : d.validate_attachment_size = false) :
    runChecks crypto d = some (Except.error DocumentError.InvalidAttachmentSize) := by
  unfold runChecks
  simp [ob, step, h1, h2, h3, h4, h5, h6, h7, h8, h9]

end ValidatorLemmas

section Claims

open Document

set_option maxRecDepth 100000

/-- C10: For every input strings in the `text_hash`, `signature`,
`share_signature`, `attachment_hash` and `path` fields (including empty and
multi-byte UTF-8 strings), the five slicing validators return a boolean
without panicking: in the panic-aware embedding (`none` = panic), each of
them always evaluates to `some` boolean, because every byte slice is
guarded by earlier conjuncts of its `&&` chain that establish that the
slice is in range and on character boundaries. -/
theorem claim10_validators_never_panic (crypto : Crypto) (d : Document) :
    (validate_text_hash crypto d).isSome = true ∧
    (validate_signature crypto d).isSome = true ∧
    (validate_share_signature d).isSome = true ∧
    (validate_attachment_hash d).isSome = true ∧
    (validate_path d).isSome = true :=
  ⟨vth_isSome crypto d, vsig_isSome crypto d, vss_isSome d, vah_isSome d, vpath_isSome d⟩

/-- C3: Check 1 (`validate_text`) passes iff the text is at most 8000 bytes
and either both attachment fields are present with non-empty text, or both
are absent with empty text; consequently any candidate with non-empty text
and no attachment fields makes `Document::new` return `InvalidText`. -/
theorem claim3_text_check :
    (∀ d : Document, d.validate_text = true ↔
      (byteLen d.text ≤ 8000 ∧
        ((d.attachment_hash.isSome = true ∧ d.attachment_size.isSome = true ∧ d.text ≠ "") ∨
         (d.attachment_hash = none ∧ d.attachment_size = none ∧ d.text = "")))) ∧
    (∀ (crypto : Crypto) (author : Identity) (text : String) (th : Option String)
        (format path signature : String) (ts : SystemTime) (share : ShareAddress)
        (ssig : String), text ≠ "" →
      Document.new crypto author text th format path signature ts share ssig none none none =
        some (Except.error DocumentError.InvalidText)) := by
  constructor
  · intro d
    unfold validate_text
    simp [Option.isNone_iff_eq_none, String.isEmpty_iff, isEmpty_false_iff]
    tauto
  · intro crypto author text th format path signature ts share ssig hne
    have h1 : Document.validate_text
        (mkDocument crypto author text th format path signature ts share ssig
          none none none) = false := by
      unfold Document.validate_text mkDocument
      simp [(isEmpty_false_iff text).mpr hne]
    exact runChecks_stop1 crypto _ h1

/-- C3 witness: a concrete non-empty text without attachment fields is
rejected with `InvalidText`. -/
theorem claim3_witness :
    Document.new cryptoZero bob "x" none "es.5" "/p" "s" 0 chat "ss" none none none =
      some (Except.error DocumentError.InvalidText) :=
  claim3_text_check.2 cryptoZero bob "x" none "es.5" "/p" "s" 0 chat "ss" (by decide)

/-- C5: the claim expects `"3ob"` to fail with `StartsWithDigit` and names
the accepted alphabet "ASCII lowercase alphanumeric"; but the source's
character check `!c.is_ascii_alphanumeric() || !c.is_ascii_lowercase()`
rejects every digit (digits are not `is_ascii_lowercase`), so `"3ob"` and
even `"bob3"` fail with `InvalidCharacters` and the `StartsWithDigit` check
is unreachable.  This theorem evaluates the code at those inputs (the
remaining examples of the claim behave as stated). -/
theorem claim5_name_validation :
    Identity.new "3ob" (some kpZero) kpZero = Except.error IdentityError.InvalidCharacters ∧
    Identity.new "bob3" (some kpZero) kpZero = Except.error IdentityError.InvalidCharacters ∧
    ShareAddress.new "3ob" (some kpZero) kpZero =
      Except.error ShareAddressError.InvalidCharacters ∧
    Identity.new "Bob" (some kpZero) kpZero = Except.error IdentityError.InvalidCharacters ∧
    Identity.new "" (some kpZero) kpZero = Except.error IdentityError.InvalidLength ∧
    Identity.new "abcdefghijklmnop" (some kpZero) kpZero =
      Except.error IdentityError.InvalidLength ∧
    Identity.new "bob" (some kpZero) kpZero =
      Except.ok { shortname := "bob", keypair := kpZero } :=
  ⟨rfl, rfl, rfl, rfl, rfl, rfl, rfl⟩

/-- C7: the claim says check 9 accepts any `attachment_size` in
[0, 2^53−2]; but the field is an `i32` (which cannot even hold 2^53−2) and
the bound `2_i32.pow(53) - 2` overflows, wrapping to −2 in release builds,
so `validate_attachment_size` is false for every document — present values
(here 0, which the claim says is accepted) are rejected with
`InvalidAttachmentSize`. -/
theorem claim7_attachment_size :
    (∀ d : Document, d.validate_attachment_size = false) ∧
    Document.new cryptoZero bob "hello" none "es.5" "/ch!at.txt"
        (sigFor cryptoZero "hello" "/ch!at.txt" T0 (some (2 * T0)) (some 0) (some "x"))
        T0 chat ss104 (some (2 * T0)) (some 0) (some "x") =
      some (Except.error DocumentError.InvalidAttachmentSize) := by
  constructor
  · intro d
    unfold validate_attachment_size
    rcases d.attachment_size with _ | sz
    · rfl
    · have hw : i32wrap 9007199254740992 = (0 : Int) := by decide
      simp [hw]
      omega
  · rfl

/-- C4: the canonical signed payload concatenates `"<name>\t<value>\n"`
lines in the spec's fixed field order (attachment lines first when an
attachment is present), and `hash_document` is `encode_hash` of exactly
these bytes; documents with identical field values hash identically. -/
theorem claim4_canonical_payload :
    (∀ (crypto : Crypto) (d : Document),
      hash_document crypto d = encode_hash crypto (strBytes (canonicalPayloadSpec d))) ∧
    (∀ (crypto : Crypto) (d1 d2 : Document), d1.author = d2.author → d1.text = d2.text →
      d1.text_hash = d2.text_hash → d1.format = d2.format → d1.path = d2.path →
      d1.signature = d2.signature → d1.timestamp = d2.timestamp → d1.share = d2.share →
      d1.share_signature = d2.share_signature → d1.delete_after = d2.delete_after →
      d1.attachment_size = d2.attachment_size → d1.attachment_hash = d2.attachment_hash →
      hash_document crypto d1 = hash_document crypto d2) := by
  have key : ∀ d : Document, hashPayload d = canonicalPayloadSpec d := by
    intro d
    unfold hashPayload canonicalPayloadSpec fieldLine
    by_cases h : (d.attachment_hash.isSome && d.attachment_size.isSome) = true
    · rw [if_pos h, if_pos h]
      apply String.ext
      simp [String.data_append, List.append_assoc]
    · rw [if_neg h, if_neg h]
      apply String.ext
      simp [String.data_append, List.append_assoc]
  refine ⟨?_, ?_⟩
  · intro crypto d
    unfold hash_document encode_hash
    rw [key]
  · intro crypto d1 d2 h1 h2 h3 h4 h5 h6 h7 h8 h9 h10 h11 h12
    unfold hash_document hashPayload delete_after_as_u128 timestamp_as_u128
    rw [h1, h3, h4, h5, h7, h8, h9, h10, h11, h12]

/-- C4 witness: the payload refinement and determinism at a concrete document. -/
theorem claim4_witness :
    hash_document cryptoZero docW =
      encode_hash cryptoZero (strBytes (canonicalPayloadSpec docW)) ∧
    hash_document cryptoZero docW = hash_document cryptoZero docW :=
  ⟨claim4_canonical_payload.1 cryptoZero docW,
   claim4_canonical_payload.2 cryptoZero docW docW rfl rfl rfl rfl rfl rfl rfl rfl rfl rfl
     rfl rfl⟩

/-- C6: `Document::new` evaluates the ten checks in the fixed source order,
short-circuiting at the first failure: its result is exactly determined by
the first failing check's error (no `Document` value is exposed then), and
it returns `Ok` iff all ten checks pass. -/
theorem claim6_check_order (crypto : Crypto) (author : Identity) (text : String)
    (th : Option String) (format path signature : String) (ts : SystemTime)
    (share : ShareAddress) (ssig : String) (da : Option SystemTime) (asz : Option Int)
    (ah : Option String) (d : Document)
    (hd : d = mkDocument crypto author text th format path signature ts share ssig
      da asz ah) :
    Document.new crypto author text th format path signature ts share ssig da asz ah =
      (firstOutcome (checkOutcomes crypto d)).map
        (fun o => match o with | some e => Except.error e | none => Except.ok d) ∧
    (Document.new crypto author text th format path signature ts share ssig da asz ah =
        some (Except.ok d) ↔
      (d.validate_text = true ∧ validate_text_hash crypto d = some true ∧
       d.validate_format = true ∧ d.validate_path = some true ∧
       validate_signature crypto d = some true ∧ d.validate_timestamp = true ∧
       validate_share_signature d = some true ∧ d.validate_delete_after = true ∧
       d.validate_attachment_size = true ∧ validate_attachment_hash d = some true)) := by
  subst hd
  constructor
  · unfold Document.new
    rw [runChecks_eq_fold, fold_eq_first]
  · unfold Document.new
    rw [runChecks_ok_iff]
    simp [checkOutcomes, ob]

/-- C6 witness: the characterization at a concrete input. -/
theorem claim6_witness :
    Document.new cryptoZero bob "" none "es.5" "/chat" "" T0 chat ss104 none none none =
      (firstOutcome (checkOutcomes cryptoZero docW)).map
        (fun o => match o with | some e => Except.error e | none => Except.ok docW) ∧
    (Document.new cryptoZero bob "" none "es.5" "/chat" "" T0 chat ss104 none none none =
        some (Except.ok docW) ↔
      (docW.validate_text = true ∧ validate_text_hash cryptoZero docW = some true ∧
       docW.validate_format = true ∧ docW.validate_path = some true ∧
       validate_signature cryptoZero docW = some true ∧ docW.validate_timestamp = true ∧
       validate_share_signature docW = some true ∧ docW.validate_delete_after = true ∧
       docW.validate_attachment_size = true ∧ validate_attachment_hash docW = some true)) :=
  claim6_check_order cryptoZero bob "" none "es.5" "/chat" "" T0 chat ss104 none none none
    docW rfl

/-- C9: `hash_text` (the `encode_hash` of the spec) is deterministic, its
result starts with `b` and is exactly 53 characters (and 53 bytes) long,
and the base32 body after the leading `b` always decodes successfully —
given that SHA-256 digests are 32 bytes. -/
theorem claim9_hash_format (crypto : Crypto) (h32 : ∀ x, (crypto.sha256 x).length = 32)
    (s t : String) :
    (s = t → hash_text crypto s = hash_text crypto t) ∧
    firstCharD (hash_text crypto s) = 'b' ∧
    (hash_text crypto s).data.length = 53 ∧
    byteLen (hash_text crypto s) = 53 ∧
    (b32decode (String.mk ((hash_text crypto s).data.drop 1))).isSome = true := by
  refine ⟨fun h => by rw [h], ?_, ?_, ?_, ?_⟩
  · simp [firstCharD, hash_text_data]
  · rw [hash_text_data, List.length_cons, b32encode_data_length, h32]
  · show byteLenL (hash_text crypto s).data = 53
    rw [hash_text_data, byteLenL_cons]
    have henc : byteLenL (b32encode (crypto.sha256 (strBytes s))).data = 52 := by
      have hb := b32encode_byteLen (crypto.sha256 (strBytes s))
      rw [h32] at hb
      exact hb
    rw [henc]
    rfl
  · rw [hash_text_data]
    simp only [List.drop_succ_cons, List.drop_zero]
    exact b32decode_encode _

/-- C9 witness: the hash-format properties at a concrete input. -/
theorem claim9_witness :
    ("hello" = "hello" → hash_text cryptoZero "hello" = hash_text cryptoZero "hello") ∧
    firstCharD (hash_text cryptoZero "hello") = 'b' ∧
    (hash_text cryptoZero "hello").data.length = 53 ∧
    byteLen (hash_text cryptoZero "hello") = 53 ∧
    (b32decode (String.mk ((hash_text cryptoZero "hello").data.drop 1))).isSome = true :=
  claim9_hash_format cryptoZero (fun _ => rfl) "hello" "hello"

/-- C8: the timestamp check passes exactly for microsecond values in
[10^13, 2^53−2]; a candidate whose earlier checks pass and whose timestamp
is 10^13−1 or 2^53−1 microseconds makes `Document::new` return
`InvalidTimestamp`. -/
theorem claim8_timestamp_bounds :
    (∀ d : Document, d.validate_timestamp = true ↔
      (10 ^ 13 ≤ d.timestamp_as_u128 ∧ d.timestamp_as_u128 ≤ 2 ^ 53 - 2)) ∧
    (∀ (crypto : Crypto) (author : Identity) (text : String) (th : Option String)
        (format path signature : String) (ts : SystemTime) (share : ShareAddress)
        (ssig : String) (da : Option SystemTime) (asz : Option Int) (ah : Option String)
        (d : Document),
      d = mkDocument crypto author text th format path signature ts share ssig da asz ah →
      d.validate_text = true → validate_text_hash crypto d = some true →
      d.validate_format = true → d.validate_path = some true →
      validate_signature crypto d = some true →
      (d.timestamp_as_u128 = 10 ^ 13 - 1 ∨ d.timestamp_as_u128 = 2 ^ 53 - 1) →
      Document.new crypto author text th format path signature ts share ssig da asz ah =
        some (Except.error DocumentError.InvalidTimestamp)) := by
  constructor
  · intro d
    unfold validate_timestamp
    simp
  · intro crypto author text th format path signature ts share ssig da asz ah d hd
      h1 h2 h3 h4 h5 hts
    have h6 : d.validate_timestamp = false := by
      unfold validate_timestamp
      rcases hts with h | h <;> rw [h] <;> decide
    subst hd
    unfold Document.new
    exact runChecks_stop6 crypto _ h1 h2 h3 h4 h5 h6

/-- C8 witness: a candidate whose checks 1–5 pass with timestamp
10^13 − 1 microseconds is rejected with `InvalidTimestamp`. -/
theorem claim8_witness :
    Document.new cryptoZero bob "" none "es.5" "/chat"
        (sigFor cryptoZero "" "/chat" tsBad none none none) tsBad chat ss104
        none none none = some (Except.error DocumentError.InvalidTimestamp) :=
  claim8_timestamp_bounds.2 cryptoZero bob "" none "es.5" "/chat"
    (sigFor cryptoZero "" "/chat" tsBad none none none) tsBad chat ss104 none none none
    _ rfl rfl rfl rfl rfl rfl (Or.inl (by decide))

/-- C1: the claim says the optional-field checks apply only "if present";
but `validate_delete_after` and `validate_attachment_size` are
`Option::map(...).unwrap_or_default()` and `bool::default()` is `false`, so
a candidate passing the earlier checks is rejected with
`InvalidDeleteAfter` when `delete_after` is absent, and with
`InvalidAttachmentSize` when `attachment_size` is absent.  (For absent
`attachment_hash` the claim's conclusion happens to hold vacuously: check
10 is unreachable because check 9 never passes, see C7.) -/
theorem vts_of_eq (d : Document) (t : SystemTime) (h : d.timestamp = t)
    (hv : (decide (10 ^ 13 ≤ microsSinceEpoch t) && decide (microsSinceEpoch t ≤ 2 ^ 53 - 2))
      = true) : d.validate_timestamp = true := by
  unfold Document.validate_timestamp Document.timestamp_as_u128
  rw [h]
  exact hv

theorem vda_of_eq (d : Document) (t0 : SystemTime) (da : Option SystemTime)
    (h : d.timestamp = t0) (h2 : d.delete_after = da)
    (hv : (da.map (fun x => decide (10 ^ 13 ≤ microsSinceEpoch x) &&
        decide (microsSinceEpoch x ≤ 2 ^ 53 - 2) && decide (t0 < x))).getD false = true) :
    d.validate_delete_after = true := by
  unfold Document.validate_delete_after
  rw [h, h2]
  exact hv

theorem claim1_absent_optional_fields (crypto : Crypto)
    (h32 : ∀ x, (crypto.sha256 x).length = 32)
    (h64 : ∀ kp m, (crypto.sign kp m).length = 64) :
    Document.new crypto bob "" none "es.5" "/chat"
        (sigFor crypto "" "/chat" T0 none none none) T0 chat ss104 none none none =
      some (Except.error DocumentError.InvalidDeleteAfter) ∧
    Document.new crypto bob "" none "es.5" "/ch!at"
        (sigFor crypto "" "/ch!at" T0 (some (2 * T0)) none none) T0 chat ss104
        (some (2 * T0)) none none =
      some (Except.error DocumentError.InvalidAttachmentSize) := by
  constructor
  · unfold Document.new
    exact runChecks_stop8 crypto _ rfl (vth_computed crypto h32 _ rfl) rfl rfl
      (vsig_computed crypto h64 _ rfl rfl) (vts_of_eq _ T0 rfl (by decide)) rfl rfl
  · unfold Document.new
    exact runChecks_stop9 crypto _ rfl (vth_computed crypto h32 _ rfl) rfl rfl
      (vsig_computed crypto h64 _ rfl rfl) (vts_of_eq _ T0 rfl (by decide)) rfl
      (vda_of_eq _ T0 (some (2 * T0)) rfl rfl (by decide)) rfl

/-- C1 witness: the two rejections at a concrete `Crypto` instance. -/
theorem claim1_witness :
    Document.new cryptoZero bob "" none "es.5" "/chat"
        (sigFor cryptoZero "" "/chat" T0 none none none) T0 chat ss104 none none none =
      some (Except.error DocumentError.InvalidDeleteAfter) ∧
    Document.new cryptoZero bob "" none "es.5" "/ch!at"
        (sigFor cryptoZero "" "/ch!at" T0 (some (2 * T0)) none none) T0 chat ss104
        (some (2 * T0)) none none =
      some (Except.error DocumentError.InvalidAttachmentSize) :=
  claim1_absent_optional_fields cryptoZero (fun _ => rfl) (fun _ _ => rfl)

/-- C2 counterexample: the end-to-end scenario (author `bob`, share `chat`,
text `"hello"`, format `"es.5"`, correctly computed signature, no
attachment) with path `"/chat.txt"` returns `InvalidText`, not the
`InvalidPath` the claim expects: the text check runs first and rejects
non-empty text without attachment fields. -/
theorem claim2_counterexample :
    Document.new cryptoZero bob "hello" none "es.5" "/chat.txt"
        (sigFor cryptoZero "hello" "/chat.txt" T0 none none none) T0 chat ss104
        none none none = some (Except.error DocumentError.InvalidText) ∧
    ¬(Document.new cryptoZero bob "hello" none "es.5" "/chat.txt"
        (sigFor cryptoZero "hello" "/chat.txt" T0 none none none) T0 chat ss104
        none none none = some (Except.error DocumentError.InvalidPath)) := by
  refine ⟨rfl, fun hc => ?_⟩
  have hc2 : (some (Except.error DocumentError.InvalidText) :
      Option (Except DocumentError Document)) =
      some (Except.error DocumentError.InvalidPath) := hc
  simp at hc2

/-- C2 amended: in the end-to-end scenario, `Document::new` returns
`InvalidText` both with path `"/chat.txt"` and with path `"/chat"` (check 1
rejects non-empty text without attachment fields before the path check
runs), and the scenario never reaches `Ok`. -/
theorem claim2_amended (crypto : Crypto) :
    Document.new crypto bob "hello" none "es.5" "/chat.txt"
        (sigFor crypto "hello" "/chat.txt" T0 none none none) T0 chat ss104
        none none none = some (Except.error DocumentError.InvalidText) ∧
    Document.new crypto bob "hello" none "es.5" "/chat"
        (sigFor crypto "hello" "/chat" T0 none none none) T0 chat ss104
        none none none = some (Except.error DocumentError.InvalidText) := by
  constructor
  · unfold Document.new
    exact runChecks_stop1 crypto _ rfl
  · unfold Document.new
    exact runChecks_stop1 crypto _ rfl

end Claims

end Earthstar
